import Mathlib

/-!
Verification development for the `compare-openrouter-models` repository.

The repository is a TypeScript web UI over a model-pricing catalog.  The
relevant logic is a pure pipeline: fetch -> normalize -> filter -> sort ->
paginate, plus a handful of pure string/number formatters.  This file gives a
shallow embedding of that pipeline in Lean:

* JavaScript numbers are modelled by exact rationals (`ℚ`).  `NaN` (the result
  of a failed `Number.parseFloat`) is modelled by `Option ℚ` with `none` for
  `NaN`.  The inputs handled by the program (decimal price strings, token
  counts) stay far below the scales at which IEEE-754 doubles diverge from
  exact rational arithmetic in these computations; `Infinity` and values at or
  above 1e21 (where `toFixed` switches to `ToString`) are outside the model.
* `Number.parseFloat` is modelled by `jsParseFloat`: skip leading whitespace,
  an optional sign, a longest prefix `digits [. digits] [(e|E) [sign] digits]`;
  no digits at all yields `none` (`NaN`).
* `Number.prototype.toFixed d` is modelled by round-half-up to `d` decimal
  places (the ECMAScript specification picks the larger candidate on ties),
  rendered with the integer part, a dot, and exactly `d` fractional digits.
* `Array.prototype.sort` is modelled by a stable comparison sort (insertion
  sort); a comparator result of `NaN` is coerced to `+0` exactly as in the
  ECMAScript `SortCompare` operation.

Each definition is translated from the source files `src/app/fetcher.ts` and
the pricing-table component (`src/unnamed/part_000`, first variant).
-/

namespace CompareOR

/-- Numeric value of a decimal digit character; used by the parser model. -/
def digitVal (c : Char) : ℕ := c.toNat - 48

/-- Longest prefix of decimal digit characters, as digit values, plus the rest. -/
def takeDigits : List Char → List ℕ × List Char
  | [] => ([], [])
  | c :: cs =>
    if c.isDigit then
      (digitVal c :: (takeDigits cs).1, (takeDigits cs).2)
    else ([], c :: cs)

/-- Value of a big-endian list of decimal digit values. -/
def valOfDigits (ds : List ℕ) : ℕ := ds.foldl (fun a d => 10 * a + d) 0

/-- Optional leading sign: returns (isNegative, rest). -/
def parseSign (cs : List Char) : Bool × List Char :=
  match cs with
  | c :: rest =>
    if c = '+' then (false, rest) else if c = '-' then (true, rest) else (false, cs)
  | [] => (false, [])

/-- Optional fractional part: a dot followed by digits. -/
def parseFrac (cs : List Char) : List ℕ × List Char :=
  match cs with
  | c :: rest => if c = '.' then takeDigits rest else ([], cs)
  | [] => ([], [])

/-- Optional exponent part `e`/`E`, sign, digits; contributes 0 when absent or
when the exponent has no digits (matching the longest-valid-prefix rule of
`parseFloat`: the exponent is then simply not part of the parsed literal). -/
def parseExpVal (cs : List Char) : ℤ :=
  match cs with
  | c :: rest =>
    if c = 'e' ∨ c = 'E' then
      let sg := parseSign rest
      let ds := (takeDigits sg.2).1
      if ds = [] then 0
      else if sg.1 then -(valOfDigits ds : ℤ) else (valOfDigits ds : ℤ)
    else 0
  | [] => 0

/-- Apply a decimal exponent to a rational. -/
def applyExp (q : ℚ) (e : ℤ) : ℚ :=
  if e < 0 then q / 10 ^ e.natAbs else q * 10 ^ e.natAbs

/-- Model of `Number.parseFloat` over exact rationals; `none` models `NaN`. -/
def jsParseFloat (s : String) : Option ℚ :=
  let cs := s.data.dropWhile Char.isWhitespace
  let sg := parseSign cs
  let ip := takeDigits sg.2
  let fp := parseFrac ip.2
  if ip.1 = [] ∧ fp.1 = [] then none
  else
    let mantissa : ℚ := (valOfDigits ip.1 : ℚ) + (valOfDigits fp.1 : ℚ) / 10 ^ fp.1.length
    let mag := applyExp mantissa (parseExpVal fp.2)
    some (if sg.1 then -mag else mag)

/-- Little-endian decimal digits of `n`, computed with explicit fuel so that
the definition is structurally recursive (and hence evaluates inside the
kernel); `fuel ≥ n` yields all digits. -/
def decDigitsFuel : ℕ → ℕ → List ℕ
  | 0, _ => []
  | fuel + 1, n => if n = 0 then [] else n % 10 :: decDigitsFuel fuel (n / 10)

/-- Little-endian decimal digits of a natural number (empty for 0). -/
def decDigits (n : ℕ) : List ℕ := decDigitsFuel n n

/-- Big-endian decimal digit values of a natural number (`[0]` for 0),
as printed by JavaScript number-to-string conversion for integers. -/
def decRep (m : ℕ) : List ℕ :=
  if m = 0 then [0] else (decDigits m).reverse

/-- Decimal digit characters of a natural number. -/
def natChars (m : ℕ) : List Char := (decRep m).map Nat.digitChar

/-- Digit values of `f` left-padded with zeros to width `d` (for `f < 10 ^ d`). -/
def padDigits (f d : ℕ) : List ℕ :=
  List.replicate (d - (decDigits f).length) 0 ++ (decDigits f).reverse

/-- Characters of `f` left-padded with zeros to width `d`. -/
def padChars (f d : ℕ) : List Char := (padDigits f d).map Nat.digitChar

/-- Round half up, as `Number.prototype.toFixed` does (the ECMAScript spec
picks the larger of two equally close candidates). -/
def roundHalfUp (q : ℚ) : ℤ := ⌊q + 1 / 2⌋

/-- Model of `x.toFixed(d)` for non-negative finite `x`: the integer whose
scaled value is nearest (half up), printed with exactly `d` decimals. -/
def toFixedStr (q : ℚ) (d : ℕ) : String :=
  ⟨natChars ((roundHalfUp (q * 10 ^ d)).toNat / 10 ^ d) ++
    '.' :: padChars ((roundHalfUp (q * 10 ^ d)).toNat % 10 ^ d) d⟩

/-- Precision chosen by `formatPrice` from the scaled (per-million-token)
value: 3 decimals below 0.001, 2 below 0.01, else 1. -/
def precOf (m : ℚ) : ℕ := if m < 1 / 1000 then 3 else if m < 1 / 100 then 2 else 1

/-- Model of `formatPrice` (src/app/fetcher.ts, lines 55-60).  A failed parse
produces `NaN`; `NaN < 0` is false in JavaScript, so the guard does not fire,
`NaN * 1e6` is `NaN`, and `NaN.toFixed(_)` renders as the string `NaN` - hence
the `"$NaN"` result on the `none` branch. -/
def formatPrice (price : String) : String :=
  match jsParseFloat price with
  | none => "$NaN"
  | some pricePerToken =>
    if pricePerToken < 0 then "N/A"
    else
      "$" ++ toFixedStr (pricePerToken * 1000000) (precOf (pricePerToken * 1000000))

/-- Fractional digit characters for `formatContextSize`: digits of `rem`
padded to width `d`, with trailing zeros stripped (JavaScript prints the
shortest decimal, e.g. `1.5` not `1.500`). -/
def fracTrimmed (rem d : ℕ) : List Char :=
  ((padChars rem d).reverse.dropWhile (fun c => c = '0')).reverse

/-- Decimal rendering of `size / unit` (exact division, `unit = 10 ^ d`), as
JavaScript number-to-string conversion prints it. -/
def renderScaled (size unit d : ℕ) : List Char :=
  if size % unit = 0 then natChars (size / unit)
  else natChars (size / unit) ++ '.' :: fracTrimmed (size % unit) d

/-- Model of `formatContextSize` (src/app/fetcher.ts, lines 66-74). -/
def formatContextSize (size : ℕ) : String :=
  if size ≥ 1000000 then ⟨renderScaled size 1000000 6 ++ ['M']⟩
  else if size ≥ 1000 then ⟨renderScaled size 1000 3 ++ ['K']⟩
  else ⟨natChars size⟩

/-- Worker for `parseContextSize`: the regex `(\d+)([KM])?` finds the first
digit anywhere in the string, takes the maximal digit run, then an optional
`K`/`M` immediately after it; no digits anywhere means no match (0). -/
def parseCSAux : List Char → ℕ
  | [] => 0
  | c :: cs =>
    if c.isDigit then
      let base := valOfDigits (takeDigits (c :: cs)).1
      match (takeDigits (c :: cs)).2 with
      | 'K' :: _ => base * 1000
      | 'M' :: _ => base * 1000000
      | _ => base
    else parseCSAux cs

/-- Model of `parseContextSize` (src/unnamed/part_000, lines 188-196). -/
def parseContextSize (sizeStr : String) : ℕ := parseCSAux sizeStr.data

/-- Model of `String.prototype.startsWith`-style prefix test on char lists
(first argument: the list, second: the pattern). -/
def listStartsWith : List Char → List Char → Bool
  | _, [] => true
  | [], _ :: _ => false
  | c :: s, d :: p => c = d && listStartsWith s p

/-- Substring occurrence test on char lists (pattern second), modelling
`String.prototype.includes`. -/
def listContainsSub : List Char → List Char → Bool
  | [], p => p.isEmpty
  | c :: rest, p => listStartsWith (c :: rest) p || listContainsSub rest p

/-- Model of `s.includes(sub)`. -/
def strIncludes (s sub : String) : Bool := listContainsSub s.data sub.data

/-- Splits a char list on a separator character; like JavaScript
`String.prototype.split` with a single-character separator, the result is
never empty and keeps empty groups. -/
def splitChar (sep : Char) : List Char → List (List Char)
  | [] => [[]]
  | c :: cs =>
    match splitChar sep cs with
    | [] => [[c]]
    | g :: gs => if c = sep then [] :: g :: gs else (c :: g) :: gs

/-- Model of `s.split(sep)` for a one-character separator. -/
def jsSplit (s : String) (sep : Char) : List String :=
  (splitChar sep s.data).map (fun l => ⟨l⟩)

/-- Model of `String.prototype.toLowerCase` (ASCII case mapping, which covers
the catalog's labels). -/
def strToLower (s : String) : String := ⟨s.data.map Char.toLower⟩

/-- Joins strings with a separator, as `Array.prototype.join` does. -/
def joinWith (sep : String) : List String → String
  | [] => ""
  | [s] => s
  | s :: rest => s ++ sep ++ joinWith sep rest

/-- Model of `s.replace("$", "")`: remove the first occurrence of `$`. -/
def removeFirstDollar : List Char → List Char
  | [] => []
  | c :: cs => if c = '$' then cs else c :: removeFirstDollar cs

/-- Result of stripping the first `"$"` from a string. -/
def stripDollar (s : String) : String := ⟨removeFirstDollar s.data⟩

/-- Model of `capitalizeFirstLetter` (src/app/fetcher.ts, lines 62-64). -/
def capitalizeFirstLetter (s : String) : String :=
  match s.data with
  | [] => ""
  | c :: cs => ⟨c.toUpper :: cs⟩

/-- Architecture block of a raw catalog entry (src/app/fetcher.ts, lines 7-13). -/
structure ArchitectureInfo where
  modality : String
  input_modalities : List String
  output_modalities : List String
  tokenizer : String
  instruct_type : Option String
deriving DecidableEq, Repr

/-- Pricing block of a raw catalog entry (src/app/fetcher.ts, lines 14-23).
Optional fields are `Option String`; JavaScript truthiness also treats the
empty string as absent, which `optPrice` below accounts for. -/
structure PricingInfo where
  prompt : String
  completion : String
  request : Option String := none
  image : Option String := none
  web_search : Option String := none
  internal_reasoning : Option String := none
  input_cache_read : Option String := none
  input_cache_write : Option String := none
deriving DecidableEq, Repr

/-- Top-provider block of a raw catalog entry (src/app/fetcher.ts, lines 24-28). -/
structure TopProvider where
  context_length : Option ℕ := none
  max_completion_tokens : Option ℕ := none
  is_moderated : Bool := false
deriving DecidableEq, Repr

/-- Raw catalog entry (src/app/fetcher.ts, lines 1-31).  The untyped
`per_request_limits : any` field is never read by the program and is omitted. -/
structure OpenRouterModel where
  id : String
  name : String
  created : ℕ := 0
  description : String := ""
  context_length : ℕ
  architecture : ArchitectureInfo
  pricing : PricingInfo
  top_provider : TopProvider := {}
  supported_parameters : List String := []
deriving DecidableEq, Repr

/-- Display record (src/app/fetcher.ts, lines 37-52). -/
structure ModelData where
  id : String
  name : String
  url : String
  provider : String
  contextWindow : String
  inputCost : String
  outputCost : String
  imageCost : String
  features : List String
  keep : Bool
  description : String
  input_cache_read : String
  input_cache_write : String
  modalities : List String
deriving DecidableEq, Repr

/-- Model of `extractFeatures` (src/app/fetcher.ts, lines 77-92). -/
def extractFeatures (model : OpenRouterModel) : List String :=
  (if model.architecture.input_modalities.contains ("image") then ["Vision"] else []) ++
  (if model.supported_parameters.contains ("tools") ||
      model.supported_parameters.contains ("function_call")
    then ["Function calling"] else []) ++
  (if model.context_length ≥ 100000 then ["Long context"] else []) ++
  (if model.architecture.modality = "multimodal" then ["Multimodal"] else [])

/-- Formats an optional pricing field: `p ? formatPrice(p) : "N/A"`, where
JavaScript truthiness makes both a missing field and `""` fall to `"N/A"`. -/
def optPrice (p : Option String) : String :=
  match p with
  | none => "N/A"
  | some s => if s = "" then "N/A" else formatPrice s

/-- Mapping of one raw entry to a display record: the body of the
`data.data.map` call in `fetchModels` (src/app/fetcher.ts, lines 103-125). -/
def transformModel (model : OpenRouterModel) : ModelData :=
  { id := model.id
    name := model.name
    url := "https://openrouter.ai/models/" ++ model.id
    provider := capitalizeFirstLetter ((jsSplit model.id '/').headD "")
    contextWindow := formatContextSize model.context_length
    inputCost := formatPrice model.pricing.prompt
    outputCost := formatPrice model.pricing.completion
    features := extractFeatures model
    keep := false
    description := model.description
    modalities := model.architecture.input_modalities
    input_cache_read := optPrice model.pricing.input_cache_read
    input_cache_write := optPrice model.pricing.input_cache_write
    imageCost := optPrice model.pricing.image }

/-- Transport result of the catalog request, as observed by `fetchModels`:
HTTP status information plus the deserialized body (the `data` array). -/
structure FetchResponse where
  ok : Bool
  status : ℕ
  statusText : String
  data : List OpenRouterModel
deriving Repr

/-- Model of `fetchModels` (src/app/fetcher.ts, lines 95-127) as a function of
the transport result: a non-ok response throws (models as `Except.error`)
with the status and reason phrase in the message; otherwise every raw entry
is mapped to a display record. -/
def fetchModels (r : FetchResponse) : Except String (List ModelData) :=
  if !r.ok then
    Except.error ("Failed to fetch models: " ++ toString r.status ++ " " ++ r.statusText)
  else
    Except.ok (r.data.map transformModel)

/-- The component state touched by the fetch effect (src/unnamed/part_000,
lines 54-69): the catalog, the error banner, the loading flag and the
last-updated timestamp. -/
structure UIState where
  modelData : List ModelData
  error : Option String
  fetching : Bool
  lastUpdate : String
deriving Repr

/-- Model of the fetch effect (src/unnamed/part_000, lines 72-81):
`then` stores the new catalog, `catch` stores the error message, and
`finally` clears the loading flag and stamps the time.  On the error branch
the catalog field is not written. -/
def applyFetchOutcome (st : UIState) (outcome : Except String (List ModelData))
    (now : String) : UIState :=
  match outcome with
  | Except.ok models => { st with modelData := models, fetching := false, lastUpdate := now }
  | Except.error msg => { st with error := some msg, fetching := false, lastUpdate := now }

/-- Query state read by the filter (src/unnamed/part_000, lines 55-63). -/
structure QueryState where
  debouncedSearchQuery : String
  activeFilters : List String
  filterOutFree : Bool
deriving Repr

/-- Free-record predicate from the filter body (src/unnamed/part_000,
lines 129-132): name contains `"(free)"`, or the parsed input cost is
exactly 0, or the parsed output cost is exactly 0 (`NaN === 0` is false). -/
def isFree (m : ModelData) : Bool :=
  strIncludes m.name ("(free)") ||
  decide (jsParseFloat (stripDollar m.inputCost) = some 0) ||
  decide (jsParseFloat (stripDollar m.outputCost) = some 0)

/-- Per-record filter predicate (src/unnamed/part_000, lines 116-136). -/
def passesFilter (qs : QueryState) (m : ModelData) : Bool :=
  if m.keep then true
  else
    let searchTerms := jsSplit qs.debouncedSearchQuery ' '
    let allTermsMatch :=
      searchTerms.all (fun term => strIncludes (strToLower m.name) (strToLower term))
    let searchLower := strToLower qs.debouncedSearchQuery
    let matchesSearch :=
      allTermsMatch ||
      strIncludes (strToLower m.provider) searchLower ||
      m.modalities.any (fun modality => strIncludes (strToLower modality) searchLower) ||
      m.features.any (fun feature => strIncludes (strToLower feature) searchLower)
    let matchesProviderFilter := qs.activeFilters.isEmpty || qs.activeFilters.contains m.provider
    let matchesFreeFilter := !qs.filterOutFree || !isFree m
    matchesSearch && matchesProviderFilter && matchesFreeFilter

/-- Model of `filteredModels` (src/unnamed/part_000, lines 116-136). -/
def filteredModels (qs : QueryState) (modelData : List ModelData) : List ModelData :=
  modelData.filter (passesFilter qs)

/-- Model of `toggleKeep` (src/unnamed/part_000, lines 112-114). -/
def toggleKeep (id : String) (modelData : List ModelData) : List ModelData :=
  modelData.map (fun model => if model.id = id then { model with keep := !model.keep } else model)

/-- Sort direction (src/unnamed/part_000, lines 58-61). -/
inductive SortDirection where
  | ascending
  | descending
deriving DecidableEq, Repr

/-- Sort configuration: column key and direction. -/
structure SortConfig where
  key : String
  direction : SortDirection
deriving DecidableEq, Repr

/-- Value of a dynamic property access `a[sortConfig.key]` on a display
record: a string, a boolean (`keep`), a string array (`features`,
`modalities`), or `undefined` for an unknown key. -/
inductive FieldVal where
  | str (s : String)
  | boolean (b : Bool)
  | strList (l : List String)
deriving DecidableEq, Repr

/-- Dynamic field lookup on a display record. -/
def getField (m : ModelData) (key : String) : Option FieldVal :=
  if key = "id" then some (FieldVal.str m.id)
  else if key = "name" then some (FieldVal.str m.name)
  else if key = "url" then some (FieldVal.str m.url)
  else if key = "provider" then some (FieldVal.str m.provider)
  else if key = "contextWindow" then some (FieldVal.str m.contextWindow)
  else if key = "inputCost" then some (FieldVal.str m.inputCost)
  else if key = "outputCost" then some (FieldVal.str m.outputCost)
  else if key = "imageCost" then some (FieldVal.str m.imageCost)
  else if key = "features" then some (FieldVal.strList m.features)
  else if key = "keep" then some (FieldVal.boolean m.keep)
  else if key = "description" then some (FieldVal.str m.description)
  else if key = "input_cache_read" then some (FieldVal.str m.input_cache_read)
  else if key = "input_cache_write" then some (FieldVal.str m.input_cache_write)
  else if key = "modalities" then some (FieldVal.strList m.modalities)
  else none

/-- JavaScript `String(x)` coercion of a field value (arrays join with a
comma, `undefined` prints as the string `undefined`). -/
def jsStringOf (v : Option FieldVal) : String :=
  match v with
  | none => "undefined"
  | some (FieldVal.str s) => s
  | some (FieldVal.boolean b) => if b then "true" else "false"
  | some (FieldVal.strList l) => joinWith (",") l

/-- Three-way sign of a rational difference, the information the sort uses
from the comparator's numeric return value. -/
def cmpQ (x y : ℚ) : ℤ := if x < y then -1 else if y < x then 1 else 0

/-- Three-way sign of a natural-number difference. -/
def cmpN (x y : ℕ) : ℤ := if x < y then -1 else if y < x then 1 else 0

/-- Lexicographic string comparison, modelling `localeCompare` (the default
locale-aware order agrees with code-point order on the catalog's ASCII
labels). -/
def cmpStr (x y : String) : ℤ :=
  match compare x y with
  | Ordering.lt => -1
  | Ordering.eq => 0
  | Ordering.gt => 1

/-- Comparator result after the ECMAScript `SortCompare` coercion: a `NaN`
comparator value (from `aNum - bNum` with an unparseable operand) is
treated as `+0`.  `none` models the `NaN` operand case. -/
def numCompare (a b : Option ℚ) (direction : SortDirection) : ℤ :=
  match a, b with
  | some x, some y =>
    match direction with
    | SortDirection.ascending => cmpQ x y
    | SortDirection.descending => cmpQ y x
  | _, _ => 0

/-- The sort comparator (src/unnamed/part_000, lines 138-163): pinned rows
first, then the key-specific comparison, with `direction` flipping the sign
of the key comparison only. -/
def modelCompare (cfg : SortConfig) (a b : ModelData) : ℤ :=
  if a.keep && !b.keep then -1
  else if !a.keep && b.keep then 1
  else if cfg.key = "keep" then
    match cfg.direction with
    | SortDirection.ascending => (if a.keep then 1 else 0) - (if b.keep then 1 else 0)
    | SortDirection.descending => (if b.keep then 1 else 0) - (if a.keep then 1 else 0)
  else if cfg.key = "inputCost" ∨ cfg.key = "outputCost" then
    numCompare (jsParseFloat (stripDollar (jsStringOf (getField a cfg.key))))
      (jsParseFloat (stripDollar (jsStringOf (getField b cfg.key)))) cfg.direction
  else if cfg.key = "contextWindow" then
    match cfg.direction with
    | SortDirection.ascending =>
      cmpN (parseContextSize (jsStringOf (getField a cfg.key)))
        (parseContextSize (jsStringOf (getField b cfg.key)))
    | SortDirection.descending =>
      cmpN (parseContextSize (jsStringOf (getField b cfg.key)))
        (parseContextSize (jsStringOf (getField a cfg.key)))
  else
    match getField a cfg.key, getField b cfg.key with
    | some (FieldVal.str sa), some (FieldVal.str sb) =>
      match cfg.direction with
      | SortDirection.ascending => cmpStr sa sb
      | SortDirection.descending => cmpStr sb sa
    | _, _ => 0

/-- Stable insertion step: place `a` before the first element it compares
less-or-equal to.  Because `a` originates earlier in the input than every
element of the already-sorted list, placing it at the first tie preserves
insertion order, as the (stable) ECMAScript sort does. -/
def orderedInsert (cmp : ModelData → ModelData → ℤ) (a : ModelData) :
    List ModelData → List ModelData
  | [] => [a]
  | b :: l => if cmp a b ≤ 0 then a :: b :: l else b :: orderedInsert cmp a l

/-- Stable comparison sort modelling `Array.prototype.sort`: for a consistent
comparator this is the unique stable order the ECMAScript spec mandates. -/
def sortByCompare (cmp : ModelData → ModelData → ℤ) : List ModelData → List ModelData
  | [] => []
  | a :: l => orderedInsert cmp a (sortByCompare cmp l)

/-- Model of `sortedModels` (src/unnamed/part_000, lines 138-163). -/
def sortedModels (cfg : SortConfig) (filtered : List ModelData) : List ModelData :=
  sortByCompare (modelCompare cfg) filtered

/-- Page size (src/unnamed/part_000, line 51). -/
def MODELS_PER_PAGE : ℕ := 15

/-- Model of `displayedModels = sortedModels.slice(0, displayLimit)`
(src/unnamed/part_000, line 165). -/
def displayedModels (sorted : List ModelData) (displayLimit : ℕ) : List ModelData :=
  sorted.take displayLimit

/-- Model of `hasMoreModels = sortedModels.length > displayLimit`
(src/unnamed/part_000, line 166). -/
def hasMoreModels (sorted : List ModelData) (displayLimit : ℕ) : Bool :=
  decide (sorted.length > displayLimit)

/-- Model of `loadMoreModels` (src/unnamed/part_000, lines 168-170). -/
def loadMoreModels (displayLimit : ℕ) : ℕ := displayLimit + MODELS_PER_PAGE

/-- Concrete record whose currency fields are the `"N/A"` sentinel. -/
def sampleNA : ModelData :=
  { id := "x/na"
    name := "NA Model"
    url := "https://openrouter.ai/models/x/na"
    provider := "X"
    contextWindow := "4K"
    inputCost := "N/A"
    outputCost := "N/A"
    imageCost := "N/A"
    features := []
    keep := false
    description := ""
    input_cache_read := "N/A"
    input_cache_write := "N/A"
    modalities := ["text"] }

/-- Concrete record with a parseable input cost. -/
def sampleCheap : ModelData :=
  { id := "y/cheap"
    name := "Cheap Model"
    url := "https://openrouter.ai/models/y/cheap"
    provider := "Y"
    contextWindow := "8K"
    inputCost := "$5.0"
    outputCost := "$10.0"
    imageCost := "N/A"
    features := []
    keep := false
    description := ""
    input_cache_read := "N/A"
    input_cache_write := "N/A"
    modalities := ["text"] }

/-- Concrete record with zero input cost (a free model). -/
def sampleFree : ModelData :=
  { id := "z/free"
    name := "Free Model"
    url := "https://openrouter.ai/models/z/free"
    provider := "Z"
    contextWindow := "8K"
    inputCost := "$0.0"
    outputCost := "$0.0"
    imageCost := "N/A"
    features := []
    keep := false
    description := ""
    input_cache_read := "N/A"
    input_cache_write := "N/A"
    modalities := ["text"] }

/-- Concrete pinned record. -/
def sampleKeptA : ModelData := { sampleCheap with id := "y/kept-a", name := "Kept A", keep := true }

/-- A second concrete pinned record. -/
def sampleKeptB : ModelData := { sampleNA with id := "x/kept-b", name := "Kept B", keep := true }

/-- The default sort configuration (src/unnamed/part_000, line 61). -/
def cfgInputAsc : SortConfig := { key := "inputCost", direction := SortDirection.ascending }

/-- An empty query state with the hide-free flag off. -/
def qsPlain : QueryState :=
  { debouncedSearchQuery := "", activeFilters := [], filterOutFree := false }

/-- An empty query state with the hide-free flag on. -/
def qsHideFree : QueryState :=
  { debouncedSearchQuery := "", activeFilters := [], filterOutFree := true }

/-- Holds when a char list is empty or does not start with a decimal digit;
the boundary condition under which a digit run stops. -/
def headNotDigit (rest : List Char) : Prop :=
  match rest with
  | [] => True
  | c :: _ => c.isDigit = false

end CompareOR


namespace CompareOR

theorem ofDigits_decDigitsFuel : ∀ (fuel n : ℕ), n ≤ fuel →
    Nat.ofDigits 10 (decDigitsFuel fuel n) = n := by
  intro fuel
  induction fuel with
  | zero => intro n hn; interval_cases n; simp [decDigitsFuel]
  | succ fuel ih =>
    intro n hn
    by_cases h0 : n = 0
    · simp [decDigitsFuel, h0]
    · have hdiv : n / 10 ≤ fuel := by
        have := Nat.div_lt_self (Nat.pos_of_ne_zero h0) (by norm_num : 1 < 10)
        omega
      simp only [decDigitsFuel, h0, if_false, Nat.ofDigits_cons, ih _ hdiv]
      omega

theorem decDigitsFuel_lt_ten : ∀ (fuel n d : ℕ), d ∈ decDigitsFuel fuel n → d < 10 := by
  intro fuel
  induction fuel with
  | zero => intro n d hd; simp [decDigitsFuel] at hd
  | succ fuel ih =>
    intro n d hd
    by_cases h0 : n = 0
    · simp [decDigitsFuel, h0] at hd
    · simp only [decDigitsFuel, h0, if_false, List.mem_cons] at hd
      rcases hd with hd | hd
      · omega
      · exact ih _ _ hd

theorem decDigitsFuel_length_le : ∀ (fuel n k : ℕ), n ≤ fuel → n < 10 ^ k →
    (decDigitsFuel fuel n).length ≤ k := by
  intro fuel
  induction fuel with
  | zero => intro n k hn _; interval_cases n; simp [decDigitsFuel]
  | succ fuel ih =>
    intro n k hn hk
    by_cases h0 : n = 0
    · simp [decDigitsFuel, h0]
    · have hk1 : 1 ≤ k := by
        by_contra hlt
        have : k = 0 := by omega
        subst this
        simp at hk
        omega
      have hdivfuel : n / 10 ≤ fuel := by
        have := Nat.div_lt_self (Nat.pos_of_ne_zero h0) (by norm_num : 1 < 10)
        omega
      have hdivpow : n / 10 < 10 ^ (k - 1) := by
        have hmul : n < 10 * 10 ^ (k - 1) := by
          have : 10 * 10 ^ (k - 1) = 10 ^ k := by
            rw [← pow_succ']
            congr 1
            omega
          omega
        exact Nat.div_lt_of_lt_mul hmul
      have := ih (n / 10) (k - 1) hdivfuel hdivpow
      simp only [decDigitsFuel, h0, if_false, List.length_cons]
      omega

theorem foldl_step_reverse (L : List ℕ) (acc : ℕ) :
    L.reverse.foldl (fun a d => 10 * a + d) acc = acc * 10 ^ L.length + Nat.ofDigits 10 L := by
  induction L generalizing acc with
  | nil => simp [Nat.ofDigits]
  | cons d L ih =>
    simp only [List.reverse_cons, List.foldl_append, List.foldl_cons, List.foldl_nil, ih,
      Nat.ofDigits_cons, List.length_cons]
    ring

theorem valOfDigits_decRep (m : ℕ) : valOfDigits (decRep m) = m := by
  by_cases h0 : m = 0
  · subst h0; rfl
  · unfold valOfDigits decRep decDigits
    simp only [h0, if_false]
    rw [foldl_step_reverse]
    simp [ofDigits_decDigitsFuel m m le_rfl]

theorem foldl_replicate_zero (k : ℕ) (L : List ℕ) :
    (List.replicate k 0 ++ L).foldl (fun a d => 10 * a + d) 0 =
      L.foldl (fun a d => 10 * a + d) 0 := by
  induction k with
  | zero => simp
  | succ k ih => simpa [List.replicate_succ] using ih

theorem valOfDigits_padDigits (f d : ℕ) : valOfDigits (padDigits f d) = f := by
  unfold valOfDigits padDigits
  rw [foldl_replicate_zero]
  have := valOfDigits_decRep f
  by_cases h0 : f = 0
  · subst h0; simp [decDigits, decDigitsFuel]
  · unfold valOfDigits decRep at this
    simpa [h0] using this

theorem padDigits_length (f d : ℕ) (hf : f < 10 ^ d) : (padDigits f d).length = d := by
  have hlen : (decDigits f).length ≤ d :=
    decDigitsFuel_length_le f f d le_rfl hf
  simp only [padDigits, List.length_append, List.length_replicate, List.length_reverse]
  omega

theorem digitChar_facts (d : ℕ) (h : d < 10) :
    (Nat.digitChar d).isDigit = true ∧ digitVal (Nat.digitChar d) = d ∧
    (Nat.digitChar d).isWhitespace = false ∧ Nat.digitChar d ≠ '+' ∧
    Nat.digitChar d ≠ '-' ∧ Nat.digitChar d ≠ '.' := by
  interval_cases d <;> refine ⟨by decide, by decide, by decide, by decide, by decide, by decide⟩

theorem decRep_lt_ten (m d : ℕ) (hd : d ∈ decRep m) : d < 10 := by
  unfold decRep at hd
  by_cases h0 : m = 0
  · simp [h0] at hd; omega
  · simp only [h0, if_false, List.mem_reverse] at hd
    exact decDigitsFuel_lt_ten m m d hd

theorem natChars_cons (m : ℕ) : ∃ d rest, d < 10 ∧ natChars m = Nat.digitChar d :: rest ∧
    (∀ c ∈ rest, ∃ e, e < 10 ∧ c = Nat.digitChar e) := by
  unfold natChars
  obtain ⟨d, ds, hds⟩ : ∃ d ds, decRep m = d :: ds := by
    unfold decRep
    by_cases h0 : m = 0
    · exact ⟨0, [], by simp [h0]⟩
    · have : decDigits m ≠ [] := by
        obtain ⟨m', rfl⟩ := Nat.exists_eq_succ_of_ne_zero h0
        simp [decDigits, decDigitsFuel]
      rcases hrev : (decDigits m).reverse with _ | ⟨d, ds⟩
      · exact absurd (by simpa using congrArg List.reverse hrev) this
      · exact ⟨d, ds, by simp [h0, hrev]⟩
  refine ⟨d, ds.map Nat.digitChar, ?_, by rw [hds]; simp, ?_⟩
  · exact decRep_lt_ten m d (by rw [hds]; simp)
  · intro c hc
    rcases List.mem_map.mp hc with ⟨e, he, rfl⟩
    exact ⟨e, decRep_lt_ten m e (by rw [hds]; simp [he]), rfl⟩

theorem natChars_all_digit (m : ℕ) : ∀ c ∈ natChars m, c.isDigit = true := by
  intro c hc
  rcases List.mem_map.mp hc with ⟨e, he, rfl⟩
  exact (digitChar_facts e (decRep_lt_ten m e he)).1

theorem natChars_map_digitVal (m : ℕ) : (natChars m).map digitVal = decRep m := by
  unfold natChars
  rw [List.map_map]
  apply List.map_congr_left ?_ |>.trans (List.map_id _)
  intro e he
  exact (digitChar_facts e (decRep_lt_ten m e he)).2.1

theorem padChars_all_digit (f d : ℕ) : ∀ c ∈ padChars f d, c.isDigit = true := by
  intro c hc
  rcases List.mem_map.mp hc with ⟨e, he, rfl⟩
  refine (digitChar_facts e ?_).1
  unfold padDigits at he
  rcases List.mem_append.mp he with he | he
  · have := List.eq_of_mem_replicate he
    omega
  · exact decDigitsFuel_lt_ten f f e (List.mem_reverse.mp he)

theorem padChars_map_digitVal (f d : ℕ) : (padChars f d).map digitVal = padDigits f d := by
  unfold padChars
  rw [List.map_map]
  apply List.map_congr_left ?_ |>.trans (List.map_id _)
  intro e he
  refine (digitChar_facts e ?_).2.1
  unfold padDigits at he
  rcases List.mem_append.mp he with he | he
  · have := List.eq_of_mem_replicate he
    omega
  · exact decDigitsFuel_lt_ten f f e (List.mem_reverse.mp he)

theorem takeDigits_append (l rest : List Char) (hl : ∀ c ∈ l, c.isDigit = true)
    (hr : headNotDigit rest) : takeDigits (l ++ rest) = (l.map digitVal, rest) := by
  induction l with
  | nil =>
    rcases rest with _ | ⟨c, cs⟩
    · rfl
    · simp only [headNotDigit] at hr
      simp [takeDigits, hr]
  | cons c l ih =>
    have hc : c.isDigit = true := hl c (by simp)
    have := ih (fun x hx => hl x (by simp [hx]))
    simp [takeDigits, hc, this]

end CompareOR

namespace CompareOR

theorem decRep_ne_nil (a : ℕ) : decRep a ≠ [] := by
  obtain ⟨d0, rest0, _, hcons, _⟩ := natChars_cons a
  intro h
  rw [natChars, h] at hcons
  simp at hcons

theorem applyExp_zero (q : ℚ) : applyExp q 0 = q := by
  simp [applyExp]

theorem jsParseFloat_fixed (a f d : ℕ) (hf : f < 10 ^ d) :
    jsParseFloat ⟨natChars a ++ '.' :: padChars f d⟩ =
      some ((a : ℚ) + (f : ℚ) / (10 : ℚ) ^ d) := by
  obtain ⟨d0, rest0, hd0, hcons, _⟩ := natChars_cons a
  have hfacts := digitChar_facts d0 hd0
  have hdata : (⟨natChars a ++ '.' :: padChars f d⟩ : String).data =
      natChars a ++ '.' :: padChars f d := rfl
  have hdrop : (natChars a ++ '.' :: padChars f d).dropWhile Char.isWhitespace =
      natChars a ++ '.' :: padChars f d := by
    rw [hcons]
    simp [List.dropWhile_cons, hfacts.2.2.1]
  have hsign : parseSign (natChars a ++ '.' :: padChars f d) =
      (false, natChars a ++ '.' :: padChars f d) := by
    rw [hcons]
    simp [parseSign, hfacts.2.2.2.1, hfacts.2.2.2.2.1]
  have hnd : headNotDigit ('.' :: padChars f d) := by
    show ('.' : Char).isDigit = false
    decide
  have htake : takeDigits (natChars a ++ '.' :: padChars f d) =
      ((natChars a).map digitVal, '.' :: padChars f d) :=
    takeDigits_append (natChars a) ('.' :: padChars f d) (natChars_all_digit a) hnd
  have htakepad : takeDigits (padChars f d) = (padDigits f d, []) := by
    have h := takeDigits_append (padChars f d) [] (padChars_all_digit f d) trivial
    rw [List.append_nil] at h
    rw [h, padChars_map_digitVal]
  have hfrac : parseFrac ('.' :: padChars f d) = (padDigits f d, []) := by
    simp [parseFrac, htakepad]
  have hcond : ¬(decRep a = [] ∧ padDigits f d = []) := fun h => decRep_ne_nil a h.1
  unfold jsParseFloat
  simp only [hdata, hdrop, hsign, htake, hfrac, natChars_map_digitVal,
    valOfDigits_decRep, valOfDigits_padDigits, padDigits_length f d hf]
  rw [if_neg hcond]
  simp [show parseExpVal [] = 0 from rfl, applyExp_zero]

theorem jsParseFloat_toFixedStr (q : ℚ) (d : ℕ) :
    jsParseFloat (toFixedStr q d) =
      some (((roundHalfUp (q * 10 ^ d)).toNat : ℚ) / (10 : ℚ) ^ d) := by
  have hmod : (roundHalfUp (q * 10 ^ d)).toNat % 10 ^ d < 10 ^ d :=
    Nat.mod_lt _ (Nat.pos_pow_of_pos d (by norm_num))
  have h := jsParseFloat_fixed ((roundHalfUp (q * 10 ^ d)).toNat / 10 ^ d)
    ((roundHalfUp (q * 10 ^ d)).toNat % 10 ^ d) d hmod
  rw [show toFixedStr q d = ⟨natChars ((roundHalfUp (q * 10 ^ d)).toNat / 10 ^ d) ++
    '.' :: padChars ((roundHalfUp (q * 10 ^ d)).toNat % 10 ^ d) d⟩ from rfl, h]
  congr 1
  have hden : ((10 : ℚ) ^ d) ≠ 0 := by positivity
  field_simp
  have hdm := Nat.div_add_mod ((roundHalfUp (q * 10 ^ d)).toNat) (10 ^ d)
  have : (((10 ^ d * ((roundHalfUp (q * 10 ^ d)).toNat / 10 ^ d) +
      (roundHalfUp (q * 10 ^ d)).toNat % 10 ^ d : ℕ) : ℚ)) =
      (((roundHalfUp (q * 10 ^ d)).toNat : ℕ) : ℚ) := by
    exact_mod_cast congrArg (fun n : ℕ => (n : ℚ)) hdm
  push_cast at this
  linarith [this]

end CompareOR

namespace CompareOR

theorem stripDollar_dollar (t : String) : stripDollar ("$" ++ t) = t := by
  show (⟨removeFirstDollar ("$" ++ t).data⟩ : String) = t
  rw [String.data_append]
  rw [show removeFirstDollar (("$" : String).data ++ t.data) = t.data by
    simp [removeFirstDollar]]

theorem dollar_ne_NA (t : String) : ("$" ++ t) ≠ "N/A" := by
  intro h
  have h2 : '$' :: t.data = 'N' :: ['/', 'A'] := congrArg String.data h
  injection h2 with h3 _
  exact absurd h3 (by decide)

theorem formatPrice_of_some (s : String) (q : ℚ) (h : jsParseFloat s = some q)
    (hq : ¬q < 0) :
    formatPrice s = "$" ++ toFixedStr (q * 1000000) (precOf (q * 1000000)) := by
  unfold formatPrice
  rw [h]
  simp [hq]

theorem formatPrice_of_none (s : String) (h : jsParseFloat s = none) :
    formatPrice s = "$NaN" := by
  unfold formatPrice
  rw [h]

end CompareOR

namespace CompareOR

section ClaimsOne

attribute [local semireducible] Rat.mul Rat.add Rat.sub Rat.inv Rat.ofScientific

/-- Claim C1 (counterexample): contrary to the claim, `formatPrice "0"` does
not return `"$0.0"`; the scaled value 0 falls in the below-0.001 band and is
rendered with three decimals as `"$0.000"`. -/
theorem formatPrice_zero_counterexample :
    formatPrice "0" = "$0.000" ∧ formatPrice "0" ≠ "$0.0" ∧ formatPrice "0" ≠ "N/A" := by
  refine ⟨by decide, by decide, by decide⟩

/-- Claim C1 (amended): for the input string `"0"` (and any rate parsing to
exactly 0), `formatPrice` returns `"$0.000"` (three decimal places, because
the scaled value 0 lies below the 0.001 precision threshold), not `"N/A"`:
zero is a valid free price distinct from an absent field. -/
theorem formatPrice_zero_amended (s : String) (h : jsParseFloat s = some 0) :
    formatPrice s = "$0.000" := by
  rw [formatPrice_of_some s 0 h (by norm_num)]
  norm_num [precOf]
  decide

/-- Witness for C1: the amended theorem applied at the concrete input `"0"`. -/
theorem formatPrice_zero_amended_witness : formatPrice "0" = "$0.000" :=
  formatPrice_zero_amended "0" (by decide)

/-- Claim C2 (counterexample): contrary to the claim, the unparseable input
`"abc"` does not yield `"N/A"`: `parseFloat` gives `NaN`, `NaN < 0` is false,
and the formatter renders the malformed string `"$NaN"`. -/
theorem formatPrice_nan_counterexample :
    formatPrice "abc" = "$NaN" ∧ formatPrice "abc" ≠ "N/A" := by
  refine ⟨by decide, by decide⟩

/-- Claim C2 (amended): `formatPrice` never raises and returns `"N/A"`
precisely when the decimal parse succeeds with a negative value; when the
parse fails (`NaN`) the result is the malformed string `"$NaN"`, and on a
non-negative parse the result is a `"$"`-prefixed rendering. -/
theorem formatPrice_total_amended (s : String) :
    (formatPrice s = "N/A" ↔ ∃ q, jsParseFloat s = some q ∧ q < 0) ∧
    (jsParseFloat s = none → formatPrice s = "$NaN") ∧
    (∀ q, jsParseFloat s = some q → ¬q < 0 →
      formatPrice s = "$" ++ toFixedStr (q * 1000000) (precOf (q * 1000000))) := by
  refine ⟨?_, fun h => formatPrice_of_none s h, fun q hq hlt => formatPrice_of_some s q hq hlt⟩
  rcases hp : jsParseFloat s with _ | q
  · rw [formatPrice_of_none s hp]
    constructor
    · intro h
      exact absurd h (by decide)
    · rintro ⟨q, hq, _⟩
      cases hq
  · by_cases hlt : q < 0
    · constructor
      · intro _
        exact ⟨q, rfl, hlt⟩
      · intro _
        unfold formatPrice
        rw [hp]
        simp [hlt]
    · rw [formatPrice_of_some s q hp hlt]
      constructor
      · intro h
        exact absurd h (dollar_ne_NA _)
      · rintro ⟨q2, hq2, hq2lt⟩
        cases hq2
        exact absurd hq2lt hlt

/-- Witness for C2: the amended theorem applied at `"-1"` (negative rate,
rendered `"N/A"`) and at `"abc"` (failed parse, rendered `"$NaN"`). -/
theorem formatPrice_total_amended_witness :
    formatPrice "-1" = "N/A" ∧ formatPrice "abc" = "$NaN" :=
  ⟨(formatPrice_total_amended "-1").1.mpr ⟨-1, by decide, by norm_num⟩,
    (formatPrice_total_amended "abc").2.1 (by decide)⟩

/-- Claim C9 (counterexample): two successfully parsed non-negative rates
with r1 < r2 whose formatted numeric values strictly decrease: the scaled
value 0.0009 rounds up to `"$0.001"` in the 3-decimal band while the larger
scaled value 0.002 rounds down to `"$0.00"` in the 2-decimal band. -/
theorem formatPrice_mono_counterexample :
    jsParseFloat "0.0000000009" = some (9 / 10 ^ 10) ∧
    jsParseFloat "0.000000002" = some (2 / 10 ^ 9) ∧
    (0 : ℚ) ≤ 9 / 10 ^ 10 ∧ (9 : ℚ) / 10 ^ 10 < 2 / 10 ^ 9 ∧
    formatPrice "0.0000000009" = "$0.001" ∧
    formatPrice "0.000000002" = "$0.00" ∧
    jsParseFloat (stripDollar (formatPrice "0.0000000009")) = some (1 / 1000) ∧
    jsParseFloat (stripDollar (formatPrice "0.000000002")) = some 0 ∧
    ¬((1 : ℚ) / 1000 ≤ 0) := by
  refine ⟨by decide, by decide, by decide, by decide, by decide, by decide, by decide,
    by decide, by decide⟩

end ClaimsOne

end CompareOR

namespace CompareOR

/-- Claim C9 (amended): `formatPrice` is monotone on successfully parsed
non-negative rates whose scaled values fall in the same precision band
(`precOf` agrees): the numeric value of the formatted string is
non-decreasing.  Across band boundaries monotonicity fails (see the
counterexample). -/
theorem formatPrice_mono_same_band (s1 s2 : String) (q1 q2 : ℚ)
    (h1 : jsParseFloat s1 = some q1) (h2 : jsParseFloat s2 = some q2)
    (hq1 : 0 ≤ q1) (hlt : q1 < q2)
    (hband : precOf (q1 * 1000000) = precOf (q2 * 1000000)) :
    ∃ v1 v2, jsParseFloat (stripDollar (formatPrice s1)) = some v1 ∧
      jsParseFloat (stripDollar (formatPrice s2)) = some v2 ∧ v1 ≤ v2 := by
  have hn1 : ¬q1 < 0 := not_lt.mpr hq1
  have hn2 : ¬q2 < 0 := not_lt.mpr (le_trans hq1 (le_of_lt hlt))
  have e1 := formatPrice_of_some s1 q1 h1 hn1
  have e2 := formatPrice_of_some s2 q2 h2 hn2
  rw [← hband] at e2
  rw [e1, e2, stripDollar_dollar, stripDollar_dollar, jsParseFloat_toFixedStr,
    jsParseFloat_toFixedStr]
  refine ⟨_, _, rfl, rfl, ?_⟩
  have hm : q1 * 1000000 * 10 ^ precOf (q1 * 1000000) ≤
      q2 * 1000000 * 10 ^ precOf (q1 * 1000000) := by
    have hq : q1 * 1000000 ≤ q2 * 1000000 :=
      mul_le_mul_of_nonneg_right (le_of_lt hlt) (by norm_num)
    exact mul_le_mul_of_nonneg_right hq (by positivity)
  have hr : roundHalfUp (q1 * 1000000 * 10 ^ precOf (q1 * 1000000)) ≤
      roundHalfUp (q2 * 1000000 * 10 ^ precOf (q1 * 1000000)) :=
    Int.floor_le_floor (by linarith)
  have ht := Int.toNat_le_toNat hr
  have hc : ((roundHalfUp (q1 * 1000000 * 10 ^ precOf (q1 * 1000000))).toNat : ℚ) ≤
      ((roundHalfUp (q2 * 1000000 * 10 ^ precOf (q1 * 1000000))).toNat : ℚ) := by
    exact_mod_cast ht
  gcongr

section ClaimsNine

attribute [local semireducible] Rat.mul Rat.add Rat.sub Rat.inv Rat.ofScientific

/-- Witness for C9: the amended theorem applied at the rates 1e-6 and 2e-6,
whose scaled values 1 and 2 share the 1-decimal band. -/
theorem formatPrice_mono_same_band_witness :
    ∃ v1 v2, jsParseFloat (stripDollar (formatPrice "0.000001")) = some v1 ∧
      jsParseFloat (stripDollar (formatPrice "0.000002")) = some v2 ∧ v1 ≤ v2 :=
  formatPrice_mono_same_band "0.000001" "0.000002" (1 / 1000000) (2 / 1000000)
    (by decide) (by decide) (by norm_num) (by norm_num) (by norm_num [precOf])

end ClaimsNine

end CompareOR

namespace CompareOR

theorem headNotDigit_of (c : Char) (cs : List Char) (h : c.isDigit = false) :
    headNotDigit (c :: cs) := h

theorem parseCSAux_natChars_nil (m : ℕ) : parseCSAux (natChars m) = m := by
  obtain ⟨d0, rest0, hd0, hcons, _⟩ := natChars_cons m
  have hfacts := digitChar_facts d0 hd0
  have htake : takeDigits (natChars m ++ []) = (decRep m, []) := by
    rw [takeDigits_append (natChars m) [] (natChars_all_digit m) trivial,
      natChars_map_digitVal]
  rw [List.append_nil] at htake
  rw [hcons]
  simp only [parseCSAux, hfacts.1, if_true]
  rw [← hcons, htake]
  simp [valOfDigits_decRep]

theorem parseCSAux_natChars_K (m : ℕ) : parseCSAux (natChars m ++ ['K']) = m * 1000 := by
  obtain ⟨d0, rest0, hd0, hcons, _⟩ := natChars_cons m
  have hfacts := digitChar_facts d0 hd0
  have htake : takeDigits (natChars m ++ ['K']) = (decRep m, ['K']) := by
    rw [takeDigits_append (natChars m) ['K'] (natChars_all_digit m)
      (headNotDigit_of 'K' [] (by decide)), natChars_map_digitVal]
  rw [hcons, List.cons_append]
  simp only [parseCSAux, hfacts.1, if_true]
  rw [← List.cons_append, ← hcons, htake]
  simp [valOfDigits_decRep]

theorem parseCSAux_natChars_M (m : ℕ) :
    parseCSAux (natChars m ++ ['M']) = m * 1000000 := by
  obtain ⟨d0, rest0, hd0, hcons, _⟩ := natChars_cons m
  have hfacts := digitChar_facts d0 hd0
  have htake : takeDigits (natChars m ++ ['M']) = (decRep m, ['M']) := by
    rw [takeDigits_append (natChars m) ['M'] (natChars_all_digit m)
      (headNotDigit_of 'M' [] (by decide)), natChars_map_digitVal]
  rw [hcons, List.cons_append]
  simp only [parseCSAux, hfacts.1, if_true]
  rw [← List.cons_append, ← hcons, htake]
  simp [valOfDigits_decRep]

/-- Claim C3 (counterexample): 1,500,000 is an exact multiple of 1,000, but
the round trip fails on it: `formatContextSize` renders `"1.5M"`, and the
regex `(\d+)([KM])?` matches only the leading `"1"` (the `.` stops the digit
run before the `M` suffix), so `parseContextSize` returns 1, not 1,500,000. -/
theorem contextSize_roundtrip_counterexample :
    1500000 % 1000 = 0 ∧ formatContextSize 1500000 = "1.5M" ∧
    parseContextSize (formatContextSize 1500000) = 1 ∧
    parseContextSize (formatContextSize 1500000) ≠ 1500000 := by
  refine ⟨by decide, by decide, by decide, by decide⟩

/-- Claim C3 (amended): `parseContextSize (formatContextSize n) = n` holds
for every n that is an exact multiple of 1,000,000, and for every exact
multiple of 1,000 below 1,000,000 (these are exactly the claimed inputs on
which the label has no decimal point); multiples of 1,000 at or above
1,000,000 that are not multiples of 1,000,000 (such as 1,500,000) are
excluded, as the counterexample forces. -/
theorem contextSize_roundtrip_amended (n : ℕ)
    (h : n % 1000000 = 0 ∨ (n % 1000 = 0 ∧ n < 1000000)) :
    parseContextSize (formatContextSize n) = n := by
  unfold formatContextSize
  by_cases h6 : n ≥ 1000000
  · have hmod : n % 1000000 = 0 := by
      rcases h with h | ⟨_, hlt⟩
      · exact h
      · omega
    rw [if_pos h6]
    show parseCSAux (renderScaled n 1000000 6 ++ ['M']) = n
    rw [renderScaled, if_pos hmod, parseCSAux_natChars_M]
    omega
  · rw [if_neg h6]
    by_cases h3 : n ≥ 1000
    · have hmod : n % 1000 = 0 := by
        rcases h with h | ⟨hm, _⟩
        · omega
        · exact hm
      rw [if_pos h3]
      show parseCSAux (renderScaled n 1000 3 ++ ['K']) = n
      rw [renderScaled, if_pos hmod, parseCSAux_natChars_K]
      omega
    · rw [if_neg h3]
      show parseCSAux (natChars n) = n
      exact parseCSAux_natChars_nil n

/-- Witness for C3: the amended round-trip law applied at 128,000, together
with the claim's concrete examples. -/
theorem contextSize_roundtrip_amended_witness :
    parseContextSize (formatContextSize 128000) = 128000 ∧
    formatContextSize 128000 = "128K" ∧ parseContextSize "128K" = 128000 :=
  ⟨contextSize_roundtrip_amended 128000 (Or.inr ⟨by decide, by decide⟩),
    by decide, by decide⟩

end CompareOR

namespace CompareOR

theorem modelCompare_keep_lt (cfg : SortConfig) (a b : ModelData)
    (ha : a.keep = true) (hb : b.keep = false) : modelCompare cfg a b = -1 := by
  simp [modelCompare, ha, hb]

theorem modelCompare_keep_gt (cfg : SortConfig) (a b : ModelData)
    (ha : a.keep = false) (hb : b.keep = true) : modelCompare cfg a b = 1 := by
  simp [modelCompare, ha, hb]

theorem mem_orderedInsert (cmp : ModelData → ModelData → ℤ) (a x : ModelData)
    (l : List ModelData) : x ∈ orderedInsert cmp a l ↔ x = a ∨ x ∈ l := by
  induction l with
  | nil => simp [orderedInsert]
  | cons b l ih =>
    simp only [orderedInsert]
    split
    · simp [List.mem_cons]
    · simp only [List.mem_cons, ih]
      tauto

theorem pairwise_keep_orderedInsert (cfg : SortConfig) (a : ModelData)
    (l : List ModelData)
    (hl : l.Pairwise (fun x y => y.keep = true → x.keep = true)) :
    (orderedInsert (modelCompare cfg) a l).Pairwise
      (fun x y => y.keep = true → x.keep = true) := by
  induction l with
  | nil => simp [orderedInsert]
  | cons b l ih =>
    rw [List.pairwise_cons] at hl
    obtain ⟨hb, hl2⟩ := hl
    simp only [orderedInsert]
    split
    case isTrue hle =>
      rw [List.pairwise_cons]
      refine ⟨?_, List.pairwise_cons.mpr ⟨hb, hl2⟩⟩
      intro y hy hykeep
      by_contra hak
      have hak2 : a.keep = false := by
        revert hak
        cases a.keep <;> simp
      have hbk : b.keep = true := by
        rcases List.mem_cons.mp hy with rfl | hy2
        · exact hykeep
        · exact hb y hy2 hykeep
      have hcmp := modelCompare_keep_gt cfg a b hak2 hbk
      omega
    case isFalse hgt =>
      rw [List.pairwise_cons]
      refine ⟨?_, ih hl2⟩
      intro y hy hykeep
      rcases (mem_orderedInsert (modelCompare cfg) a y l).mp hy with rfl | hy2
      · by_contra hbk
        have hbk2 : b.keep = false := by
          revert hbk
          cases b.keep <;> simp
        have hcmp := modelCompare_keep_lt cfg y b hykeep hbk2
        omega
      · exact hb y hy2 hykeep

theorem pairwise_keep_sortByCompare (cfg : SortConfig) (l : List ModelData) :
    (sortByCompare (modelCompare cfg) l).Pairwise
      (fun x y => y.keep = true → x.keep = true) := by
  induction l with
  | nil => exact List.Pairwise.nil
  | cons a l ih => exact pairwise_keep_orderedInsert cfg a _ ih

theorem passesFilter_of_keep (qs : QueryState) (m : ModelData) (h : m.keep = true) :
    passesFilter qs m = true := by
  simp [passesFilter, h]

/-- Claim C4 (confirmed): for every catalog and every query and sort state,
every record with `keep = true` appears in the filtered result (the filter
short-circuits on `keep`), and in the sorted view a pinned record never
appears after an unpinned one - whatever the sort key and direction, since
the comparator's pinned-first branches precede the key comparison. -/
theorem keep_pinned_filter_sort (catalog : List ModelData) (qs : QueryState)
    (cfg : SortConfig) :
    (∀ m ∈ catalog, m.keep = true → m ∈ filteredModels qs catalog) ∧
    (∀ (i j : ℕ) (hi : i < (sortedModels cfg (filteredModels qs catalog)).length)
      (hj : j < (sortedModels cfg (filteredModels qs catalog)).length), i < j →
      ((sortedModels cfg (filteredModels qs catalog)).get ⟨j, hj⟩).keep = true →
      ((sortedModels cfg (filteredModels qs catalog)).get ⟨i, hi⟩).keep = true) := by
  constructor
  · intro m hm hk
    exact List.mem_filter.mpr ⟨hm, passesFilter_of_keep qs m hk⟩
  · intro i j hi hj hij hkeep
    have hp := pairwise_keep_sortByCompare cfg (filteredModels qs catalog)
    rw [List.pairwise_iff_getElem] at hp
    simp only [List.get_eq_getElem] at hkeep ⊢
    exact hp i j hi hj hij hkeep

end CompareOR

namespace CompareOR

section ClaimsFour

attribute [local semireducible] Rat.mul Rat.add Rat.sub Rat.inv Rat.ofScientific

/-- Witness for C4: the theorem applied to a concrete two-record catalog of
pinned records, under the hide-free filter and the default sort. -/
theorem keep_pinned_filter_sort_witness :
    sampleKeptA ∈ filteredModels qsHideFree [sampleKeptA, sampleKeptB] ∧
    ((sortedModels cfgInputAsc (filteredModels qsHideFree
      [sampleKeptA, sampleKeptB])).get ⟨0, by decide⟩).keep = true :=
  ⟨(keep_pinned_filter_sort [sampleKeptA, sampleKeptB] qsHideFree cfgInputAsc).1
      sampleKeptA (by decide) (by decide),
    (keep_pinned_filter_sort [sampleKeptA, sampleKeptB] qsHideFree cfgInputAsc).2
      0 1 (by decide) (by decide) (by decide) (by decide)⟩

end ClaimsFour

end CompareOR

namespace CompareOR

theorem passesFilter_hideFree (query : String) (filters : List String) (m : ModelData) :
    passesFilter ⟨query, filters, true⟩ m =
      (passesFilter ⟨query, filters, false⟩ m && (m.keep || !isFree m)) := by
  by_cases hk : m.keep
  · simp [passesFilter, hk]
  · have hk2 : m.keep = false := by
      revert hk
      cases m.keep <;> simp
    simp only [passesFilter, hk2, Bool.false_eq_true, if_false, Bool.false_or]
    cases hfree : isFree m <;> simp

theorem numCompare_none_left (y : Option ℚ) (dir : SortDirection) :
    numCompare none y dir = 0 := by
  cases y <;> rfl

theorem numCompare_none_right (x : Option ℚ) (dir : SortDirection) :
    numCompare x none dir = 0 := by
  cases x <;> rfl

end CompareOR

namespace CompareOR

section ClaimsFive

attribute [local semireducible] Rat.mul Rat.add Rat.sub Rat.inv Rat.ofScientific

/-- Claim C5 (confirmed): a record is free iff its name contains `"(free)"`,
or its parsed input cost equals 0, or its parsed output cost equals 0; with
the hide-free flag on, the filtered result is exactly the hide-free-off
result minus the free non-pinned records; and a record with
`inputCost = "$0.0"` and `keep = false` is excluded whenever hide-free is
on, regardless of the search text and provider filter. -/
theorem hideFree_filter_characterization (catalog : List ModelData) (query : String)
    (filters : List String) (m : ModelData) :
    (isFree m = true ↔
      (strIncludes m.name ("(free)") = true ∨
        jsParseFloat (stripDollar m.inputCost) = some 0 ∨
        jsParseFloat (stripDollar m.outputCost) = some 0)) ∧
    (m ∈ filteredModels ⟨query, filters, true⟩ catalog ↔
      (m ∈ filteredModels ⟨query, filters, false⟩ catalog ∧
        (m.keep = true ∨ isFree m = false))) ∧
    (m.inputCost = "$0.0" → m.keep = false →
      m ∉ filteredModels ⟨query, filters, true⟩ catalog) := by
  refine ⟨by simp only [isFree, Bool.or_eq_true, decide_eq_true_eq]; tauto, ?_, ?_⟩
  · simp only [filteredModels, List.mem_filter, passesFilter_hideFree, Bool.and_eq_true,
      Bool.or_eq_true, Bool.not_eq_true']
    tauto
  · intro hcost hkeep hmem
    have hfree : isFree m = true := by
      simp only [isFree, hcost, Bool.or_eq_true, decide_eq_true_eq]
      have hz : jsParseFloat (stripDollar "$0.0") = some 0 := by decide
      tauto
    rw [filteredModels, List.mem_filter, passesFilter_hideFree] at hmem
    simp [hkeep, hfree] at hmem

/-- Witness for C5: the characterization applied to a concrete zero-priced,
unpinned record, which the hide-free filter excludes. -/
theorem hideFree_filter_characterization_witness :
    sampleFree ∉ filteredModels ⟨"", [], true⟩ [sampleFree] :=
  (hideFree_filter_characterization [sampleFree] "" [] sampleFree).2.2
    (by decide) (by decide)

/-- Claim C6 (counterexample): with the default ascending input-cost sort,
a record whose input cost is the `"N/A"` sentinel does not sort after the
record with a real parsed cost: the comparator returns `NaN`, which the sort
treats as a tie, so the stable sort leaves the `"N/A"` record first. -/
theorem nan_sort_counterexample :
    sampleNA.inputCost = "N/A" ∧
    jsParseFloat (stripDollar sampleNA.inputCost) = none ∧
    jsParseFloat (stripDollar sampleCheap.inputCost) = some 5 ∧
    sortedModels cfgInputAsc [sampleNA, sampleCheap] = [sampleNA, sampleCheap] := by
  refine ⟨by decide, by decide, by decide, by decide⟩

/-- Claim C6 (amended): when sorting by a currency field, a comparison
involving a record whose field fails to parse (the `"N/A"` sentinel, `NaN`)
returns 0 in both argument orders - the ECMAScript sort coerces a `NaN`
comparator result to `+0` - so, the sort being stable, such a record keeps
its relative insertion position instead of sorting after all real-valued
records. -/
theorem nan_sort_amended (cfg : SortConfig) (a b : ModelData)
    (hkey : cfg.key = "inputCost" ∨ cfg.key = "outputCost")
    (hkeep : a.keep = b.keep)
    (hna : jsParseFloat (stripDollar (jsStringOf (getField a cfg.key))) = none) :
    modelCompare cfg a b = 0 ∧ modelCompare cfg b a = 0 := by
  have hk1 : (a.keep && !b.keep) = false := by
    rw [hkeep]
    cases b.keep <;> simp
  have hk2 : (!a.keep && b.keep) = false := by
    rw [hkeep]
    cases b.keep <;> simp
  have hk3 : (b.keep && !a.keep) = false := by
    rw [hkeep]
    cases b.keep <;> simp
  have hk4 : (!b.keep && a.keep) = false := by
    rw [hkeep]
    cases b.keep <;> simp
  obtain ⟨key, dir⟩ := cfg
  simp only at hkey hna
  rcases hkey with rfl | rfl <;>
    constructor <;>
    simp [modelCompare, hk1, hk2, hk3, hk4, hna, numCompare_none_left, numCompare_none_right]

/-- Witness for C6: the amended tie property applied to the concrete
`"N/A"`-priced record against the real-priced one. -/
theorem nan_sort_amended_witness :
    modelCompare cfgInputAsc sampleNA sampleCheap = 0 ∧
    modelCompare cfgInputAsc sampleCheap sampleNA = 0 :=
  nan_sort_amended cfgInputAsc sampleNA sampleCheap (Or.inl rfl) rfl (by decide)

end ClaimsFive

end CompareOR

namespace CompareOR

/-- Claim C7 (confirmed): the displayed rows are exactly the prefix of the
sorted list of length `min(limit, total)`; `hasMore` holds iff
`total > limit`; one `loadMore()` from the initial limit (one page) yields
`min(pageSize + pageSize, total)` rows; and once `hasMore` is false the whole
list is displayed. -/
theorem pagination_window (l : List ModelData) (limit : ℕ) :
    (displayedModels l limit).length = min limit l.length ∧
    displayedModels l limit <+: l ∧
    (hasMoreModels l limit = true ↔ l.length > limit) ∧
    (displayedModels l (loadMoreModels MODELS_PER_PAGE)).length =
      min (MODELS_PER_PAGE + MODELS_PER_PAGE) l.length ∧
    (hasMoreModels l limit = false → (displayedModels l limit).length = l.length) := by
  refine ⟨List.length_take _ _, List.take_prefix _ _, by simp [hasMoreModels], ?_, ?_⟩
  · exact List.length_take _ _
  · intro h
    have h2 : ¬l.length > limit := by simpa [hasMoreModels] using h
    rw [displayedModels, List.length_take]
    omega

/-- Witness for C7: the pagination law applied to a one-record list with a
limit of 5, where no further page exists. -/
theorem pagination_window_witness :
    (displayedModels [sampleCheap] 5).length = ([sampleCheap] : List ModelData).length ∧
    (displayedModels [sampleCheap] 5).length = min 5 ([sampleCheap] : List ModelData).length :=
  ⟨(pagination_window [sampleCheap] 5).2.2.2.2 (by decide),
    (pagination_window [sampleCheap] 5).1⟩

/-- Claim C8 (confirmed): on a non-ok transport result, `fetchModels` fails
with a message carrying the HTTP status and reason phrase, and applying the
outcome to the UI state leaves the in-memory catalog untouched, surfacing
only the error message. -/
theorem fetch_error_preserves_catalog (r : FetchResponse) (st : UIState) (now : String)
    (h : r.ok = false) :
    fetchModels r = Except.error
      ("Failed to fetch models: " ++ toString r.status ++ " " ++ r.statusText) ∧
    (applyFetchOutcome st (fetchModels r) now).modelData = st.modelData ∧
    (applyFetchOutcome st (fetchModels r) now).error =
      some ("Failed to fetch models: " ++ toString r.status ++ " " ++ r.statusText) := by
  have he : fetchModels r = Except.error
      ("Failed to fetch models: " ++ toString r.status ++ " " ++ r.statusText) := by
    simp [fetchModels, h]
  refine ⟨he, ?_, ?_⟩ <;> rw [he] <;> rfl

/-- Witness for C8: a concrete 500 response against a concrete prior state;
the catalog snapshot survives unchanged. -/
theorem fetch_error_preserves_catalog_witness :
    fetchModels ⟨false, 500, "Internal Server Error", []⟩ =
      Except.error "Failed to fetch models: 500 Internal Server Error" ∧
    (applyFetchOutcome ⟨[sampleCheap], none, true, ""⟩
      (fetchModels ⟨false, 500, "Internal Server Error", []⟩) "now").modelData =
      [sampleCheap] := by
  have h := fetch_error_preserves_catalog ⟨false, 500, "Internal Server Error", []⟩
    ⟨[sampleCheap], none, true, ""⟩ "now" rfl
  have hs : ("Failed to fetch models: " ++ toString (500 : ℕ) ++ " " ++
      "Internal Server Error") = "Failed to fetch models: 500 Internal Server Error" := by
    decide
  exact ⟨by rw [h.1]; rw [show (⟨false, 500, "Internal Server Error", []⟩ :
    FetchResponse).status = (500 : ℕ) from rfl, show (⟨false, 500, "Internal Server Error",
    []⟩ : FetchResponse).statusText = "Internal Server Error" from rfl, hs], h.2.1⟩

/-- Claim C10 (confirmed): `toggleKeep id` preserves the catalog's length and
order, flips exactly the `keep` flag of the records whose id matches (leaving
all other fields and all other records untouched), is the identity when no
record matches, and is an involution. -/
theorem toggleKeep_frame (l : List ModelData) (id : String) :
    (toggleKeep id l).length = l.length ∧
    (∀ i : ℕ, (toggleKeep id l)[i]? =
      (l[i]?).map (fun m => if m.id = id then { m with keep := !m.keep } else m)) ∧
    ((∀ m ∈ l, m.id ≠ id) → toggleKeep id l = l) ∧
    toggleKeep id (toggleKeep id l) = l := by
  refine ⟨by simp [toggleKeep], ?_, ?_, ?_⟩
  · intro i
    simp [toggleKeep]
  · intro h
    rw [toggleKeep]
    refine (List.map_congr_left ?_).trans (List.map_id l)
    intro m hm
    simp [h m hm]
  · rw [toggleKeep, toggleKeep, List.map_map]
    refine (List.map_congr_left ?_).trans (List.map_id l)
    intro m _
    by_cases hm : m.id = id
    · cases m
      simp only [Function.comp_apply]
      simp_all
    · simp [Function.comp, hm]

/-- Witness for C10: identity on a non-matching id, and the involution on a
matching id, for a concrete one-record catalog. -/
theorem toggleKeep_frame_witness :
    toggleKeep "zzz" [sampleCheap] = [sampleCheap] ∧
    toggleKeep "y/cheap" (toggleKeep "y/cheap" [sampleCheap]) = [sampleCheap] :=
  ⟨(toggleKeep_frame [sampleCheap] "zzz").2.2.1 (by decide),
    (toggleKeep_frame [sampleCheap] "y/cheap").2.2.2⟩

end CompareOR
